import Mathlib

/-!
Verification of the decision pipeline of the doom-blocker backend
(`topaz-backend-main/main.py`), shallowly embedded in Lean 4.

Conventions of the embedding:
* Python `time.time()` timestamps are modelled as natural numbers passed
  explicitly to every time-dependent operation.
* Python dictionaries that the code iterates in insertion order are
  modelled as association lists (`List (key × value)`), preserving order.
* A Python value that may be `None` is modelled with `Option`.
* Exceptions raised and caught by the code are modelled with explicit
  result types (`Except`), never by partial functions.
* `str.lower` is modelled with `Char.toLower` (faithful for ASCII text),
  and the substring operator `a in b` with `List.isInfixOf` on characters.
-/

namespace DoomBlocker

/-! ### Python string primitives -/

/-- Python `s.lower()` (ASCII case folding), defined over the character
list so that concrete instances evaluate inside the kernel. -/
def pyLower (s : String) : String := String.mk (s.toList.map Char.toLower)

/-- Does `needle` occur as an initial run of `hay`? -/
def leadMatch : List Char → List Char → Bool
  | [], _ => true
  | _ :: _, [] => false
  | a :: as, b :: bs => a == b && leadMatch as bs

/-- Does `needle` occur as a contiguous run anywhere in `hay`? -/
def pyInChars (needle : List Char) : List Char → Bool
  | [] => leadMatch needle []
  | c :: t => leadMatch needle (c :: t) || pyInChars needle t

/-- Python substring test `needle in hay`. -/
def pyIn (needle hay : String) : Bool := pyInChars needle.toList hay.toList

theorem leadMatch_iff (needle hay : List Char) :
    leadMatch needle hay = true ↔ needle <+: hay := by
  induction needle generalizing hay with
  | nil => simp [leadMatch]
  | cons a as ih =>
    cases hay with
    | nil => simp [leadMatch]
    | cons b bs =>
      simp only [leadMatch, Bool.and_eq_true, beq_iff_eq, ih, List.cons_prefix_cons]

/-- The scanner decides exactly the contiguous-substring relation, so
`pyIn` is a faithful model of Python's `in` on strings. -/
theorem pyInChars_iff (needle hay : List Char) :
    pyInChars needle hay = true ↔ needle <:+: hay := by
  induction hay with
  | nil =>
    simp [pyInChars, leadMatch_iff, List.prefix_nil, List.infix_nil]
  | cons c t ih =>
    simp only [pyInChars, Bool.or_eq_true, leadMatch_iff, ih, List.infix_cons_iff]

/-- Python `s.strip()`: drop leading and trailing whitespace, defined
over the character list so that concrete instances evaluate inside the
kernel. -/
def pyStrip (s : String) : String :=
  String.mk (((s.toList.dropWhile Char.isWhitespace).reverse.dropWhile
    Char.isWhitespace).reverse)

/-- `s.split('\n')` on character lists: split at every newline, keeping
empty pieces, as Python's `str.split` with an explicit separator does. -/
def splitNl : List Char → List (List Char)
  | [] => [[]]
  | c :: rest =>
    match splitNl rest with
    | [] => [[]]
    | line :: lines =>
      if c = '\n' then [] :: line :: lines else (c :: line) :: lines

/-- Python `s.split('\n')`. -/
def pySplitLines (s : String) : List String := (splitNl s.toList).map String.mk

/-! ### Circuit breaker (`CircuitBreaker`, main.py lines 68-129)

The wrapped operation is abstracted by a boolean `opSucceeds`: the
breaker never inspects the operation's value, only whether it raised. -/

inductive CBState where
  | CLOSED
  | OPEN
  | HALF_OPEN
deriving DecidableEq, Repr

/-- The mutable fields of the Python `CircuitBreaker` object.  The
per-state transition counters (`state_changes`) are kept as three
naturals. -/
structure CircuitBreaker where
  failure_threshold : Nat
  reset_timeout : Nat
  failure_count : Nat
  last_failure_time : Option Nat
  state : CBState
  total_requests : Nat
  total_failures : Nat
  sc_closed : Nat
  sc_open : Nat
  sc_half_open : Nat
deriving DecidableEq, Repr

/-- `CircuitBreaker.__init__`. -/
def CircuitBreaker.init (failure_threshold reset_timeout : Nat) : CircuitBreaker :=
  { failure_threshold := failure_threshold
    reset_timeout := reset_timeout
    failure_count := 0
    last_failure_time := none
    state := .CLOSED
    total_requests := 0
    total_failures := 0
    sc_closed := 0
    sc_open := 0
    sc_half_open := 0 }

/-- `CircuitBreaker._change_state`: record the transition counter and set
the new state (only when it differs from the current one). -/
def CircuitBreaker.changeState (cb : CircuitBreaker) (ns : CBState) : CircuitBreaker :=
  if ns = cb.state then cb
  else
    let cb :=
      match ns with
      | .CLOSED => { cb with sc_closed := cb.sc_closed + 1 }
      | .OPEN => { cb with sc_open := cb.sc_open + 1 }
      | .HALF_OPEN => { cb with sc_half_open := cb.sc_half_open + 1 }
    { cb with state := ns }

/-- Result of `CircuitBreaker.call`: the wrapped value propagated on
success, the `"Circuit breaker is OPEN"` exception, the wrapped
operation's own exception re-raised, or the `TypeError` Python would
raise when subtracting a `None` `last_failure_time` (unreachable from
the initial state). -/
inductive CBResult where
  | ok
  | circuitOpenError
  | opError
  | typeError
deriving DecidableEq, Repr

/-- The `try` body of `CircuitBreaker.call`: run the operation, reset on
a HALF_OPEN success, count and stamp a failure, trip the breaker at the
threshold. -/
def CircuitBreaker.attemptOp (cb : CircuitBreaker) (now : Nat) (opSucceeds : Bool) :
    CBResult × CircuitBreaker :=
  if opSucceeds then
    if cb.state = .HALF_OPEN then
      (.ok, { cb.changeState .CLOSED with failure_count := 0 })
    else
      (.ok, cb)
  else
    let cb := { cb with
      failure_count := cb.failure_count + 1
      total_failures := cb.total_failures + 1
      last_failure_time := some now }
    if cb.failure_count ≥ cb.failure_threshold then
      (.opError, cb.changeState .OPEN)
    else
      (.opError, cb)

/-- `CircuitBreaker.call` (main.py lines 81-107). -/
def CircuitBreaker.call (cb : CircuitBreaker) (now : Nat) (opSucceeds : Bool) :
    CBResult × CircuitBreaker :=
  let cb := { cb with total_requests := cb.total_requests + 1 }
  match cb.state with
  | .OPEN =>
    match cb.last_failure_time with
    | some lft =>
      if now - lft ≥ cb.reset_timeout then
        (cb.changeState .HALF_OPEN).attemptOp now opSucceeds
      else
        (.circuitOpenError, cb)
    | none => (.typeError, cb)
  | .CLOSED => cb.attemptOp now opSucceeds
  | .HALF_OPEN => cb.attemptOp now opSucceeds

/-- Iterate `call` over a list of timestamps with an always-failing
operation. -/
def CircuitBreaker.failCalls (cb : CircuitBreaker) : List Nat → CircuitBreaker
  | [] => cb
  | t :: ts => ((cb.call t false).2).failCalls ts

/-! #### Behaviour of single breaker calls -/

theorem call_closed_success (cb : CircuitBreaker) (now : Nat) (h : cb.state = .CLOSED) :
    (cb.call now true).1 = .ok ∧ (cb.call now true).2.state = .CLOSED ∧
    (cb.call now true).2.failure_count = cb.failure_count := by
  simp only [CircuitBreaker.call, h, CircuitBreaker.attemptOp, if_true]
  simp

theorem call_closed_fail (cb : CircuitBreaker) (now : Nat) (h : cb.state = .CLOSED) :
    (cb.call now false).2 =
      if cb.failure_count + 1 ≥ cb.failure_threshold then
        CircuitBreaker.changeState { cb with
          total_requests := cb.total_requests + 1
          failure_count := cb.failure_count + 1
          total_failures := cb.total_failures + 1
          last_failure_time := some now } .OPEN
      else
        { cb with
          total_requests := cb.total_requests + 1
          failure_count := cb.failure_count + 1
          total_failures := cb.total_failures + 1
          last_failure_time := some now } := by
  simp only [CircuitBreaker.call, h, CircuitBreaker.attemptOp]
  by_cases hc : cb.failure_count + 1 ≥ cb.failure_threshold <;> simp [hc]

theorem changeState_open_from_closed (cb : CircuitBreaker) (h : cb.state = .CLOSED) :
    cb.changeState .OPEN =
      { cb with state := .OPEN, sc_open := cb.sc_open + 1 } := by
  simp [CircuitBreaker.changeState, h]

theorem call_half_open_success (cb : CircuitBreaker) (now : Nat) (h : cb.state = .HALF_OPEN) :
    (cb.call now true).1 = .ok ∧ (cb.call now true).2.state = .CLOSED ∧
    (cb.call now true).2.failure_count = 0 := by
  simp only [CircuitBreaker.call, h, CircuitBreaker.attemptOp, CircuitBreaker.changeState]
  simp

theorem call_open_rejects (cb : CircuitBreaker) (now : Nat) (b : Bool) (l : Nat)
    (hstate : cb.state = .OPEN) (hlft : cb.last_failure_time = some l)
    (hlt : now - l < cb.reset_timeout) :
    cb.call now b = (.circuitOpenError, { cb with total_requests := cb.total_requests + 1 }) := by
  simp only [CircuitBreaker.call, hstate, hlft]
  rw [if_neg (by omega)]

theorem call_open_elapsed_success (cb : CircuitBreaker) (now : Nat) (l : Nat)
    (hstate : cb.state = .OPEN) (hlft : cb.last_failure_time = some l)
    (hge : cb.reset_timeout ≤ now - l) :
    (cb.call now true).1 = .ok ∧ (cb.call now true).2.state = .CLOSED ∧
    (cb.call now true).2.failure_count = 0 := by
  simp only [CircuitBreaker.call, hstate, hlft]
  rw [if_pos (by omega)]
  simp [CircuitBreaker.changeState, hstate, CircuitBreaker.attemptOp]

/-- Invariant for a run of consecutive failures starting CLOSED: once the
count reaches the threshold, the breaker is OPEN and the last failure
time is the last call's timestamp. -/
theorem failCalls_invariant (ts : List Nat) (cb : CircuitBreaker)
    (hstate : cb.state = .CLOSED)
    (hlen : cb.failure_count + ts.length = cb.failure_threshold)
    (l : Nat) (hlast : ts.getLast? = some l) :
    (cb.failCalls ts).state = .OPEN ∧
    (cb.failCalls ts).last_failure_time = some l ∧
    (cb.failCalls ts).reset_timeout = cb.reset_timeout ∧
    (cb.failCalls ts).failure_count = cb.failure_threshold := by
  induction ts generalizing cb with
  | nil => simp at hlast
  | cons t ts ih =>
    cases ts with
    | nil =>
      have hl : t = l := by simpa using hlast
      subst hl
      have hthr : cb.failure_count + 1 ≥ cb.failure_threshold := by
        simp at hlen; omega
      simp only [CircuitBreaker.failCalls]
      rw [call_closed_fail cb t hstate, if_pos hthr]
      have h1 : cb.failure_count + 1 = cb.failure_threshold := by simpa using hlen
      simp [CircuitBreaker.changeState, hstate, h1]
    | cons t' ts' =>
      have hlast' : (t' :: ts').getLast? = some l := by
        rw [List.getLast?_cons_cons] at hlast; exact hlast
      have hlt : ¬ cb.failure_count + 1 ≥ cb.failure_threshold := by
        simp only [List.length_cons] at hlen; omega
      simp only [CircuitBreaker.failCalls]
      rw [call_closed_fail cb t hstate, if_neg hlt]
      exact ih { cb with
          total_requests := cb.total_requests + 1
          failure_count := cb.failure_count + 1
          total_failures := cb.total_failures + 1
          last_failure_time := some t } hstate
        (by simp only [List.length_cons] at hlen ⊢; omega) hlast'

/-- C1: the claim as stated is false.  Starting from a freshly
constructed breaker, one failing call leaves the breaker CLOSED with
`failure_count = 1`; a subsequent successful call in the CLOSED state
keeps `failure_count = 1` — it is not reset to 0. -/
theorem C1_closed_success_keeps_failure_count :
    ((((CircuitBreaker.init 3 30).call 5 false).2).state = .CLOSED ∧
      (((CircuitBreaker.init 3 30).call 5 false).2).failure_count = 1) ∧
    (((((CircuitBreaker.init 3 30).call 5 false).2).call 10 true).1 = .ok ∧
      ((((CircuitBreaker.init 3 30).call 5 false).2).call 10 true).2.state = .CLOSED ∧
      ((((CircuitBreaker.init 3 30).call 5 false).2).call 10 true).2.failure_count ≠ 0) := by
  decide

/-- C1 (amended): in the CLOSED state a call whose wrapped operation
succeeds returns the result, leaves the state CLOSED, and leaves
`failure_count` unchanged (the count is reset to 0 only by a successful
call in the HALF_OPEN state). -/
theorem C1_closed_success_preserves_failure_count (cb : CircuitBreaker) (now : Nat)
    (h : cb.state = .CLOSED) :
    (cb.call now true).1 = .ok ∧ (cb.call now true).2.state = .CLOSED ∧
    (cb.call now true).2.failure_count = cb.failure_count :=
  call_closed_success cb now h

theorem C1_closed_success_preserves_failure_count_witness :
    (((CircuitBreaker.init 3 30).call 7 true).1 = .ok ∧
      ((CircuitBreaker.init 3 30).call 7 true).2.state = .CLOSED ∧
      ((CircuitBreaker.init 3 30).call 7 true).2.failure_count =
        (CircuitBreaker.init 3 30).failure_count) :=
  C1_closed_success_preserves_failure_count (CircuitBreaker.init 3 30) 7 rfl

/-- C2: after `failure_threshold` consecutive failing calls from a fresh
CLOSED state the breaker is OPEN with `last_failure_time` the final
failure's timestamp; while `now - last_failure_time < reset_timeout`
every call is rejected with the circuit-open error and the same state
(independently of the wrapped operation, which is therefore not
invoked); once `reset_timeout` has elapsed a successful call is
attempted through HALF_OPEN and closes the breaker with
`failure_count = 0`; and any successful call made in the HALF_OPEN
state yields `failure_count = 0` and state CLOSED. -/
theorem C2_breaker_trip_and_recover (cb : CircuitBreaker) (ts : List Nat) (l : Nat)
    (hstate : cb.state = .CLOSED) (hfc : cb.failure_count = 0)
    (hlen : ts.length = cb.failure_threshold)
    (hlast : ts.getLast? = some l) :
    ((cb.failCalls ts).state = .OPEN ∧
      (cb.failCalls ts).last_failure_time = some l) ∧
    (∀ now b, now - l < cb.reset_timeout →
      (cb.failCalls ts).call now b =
        (.circuitOpenError, { cb.failCalls ts with
          total_requests := (cb.failCalls ts).total_requests + 1 })) ∧
    (∀ now, cb.reset_timeout ≤ now - l →
      (((cb.failCalls ts).call now true).1 = .ok ∧
        ((cb.failCalls ts).call now true).2.state = .CLOSED ∧
        ((cb.failCalls ts).call now true).2.failure_count = 0)) ∧
    (∀ cb2 : CircuitBreaker, ∀ now2, cb2.state = .HALF_OPEN →
      ((cb2.call now2 true).1 = .ok ∧ (cb2.call now2 true).2.state = .CLOSED ∧
        (cb2.call now2 true).2.failure_count = 0)) := by
  have hinv := failCalls_invariant ts cb hstate (by omega) l hlast
  obtain ⟨h1, h2, h3, _⟩ := hinv
  refine ⟨⟨h1, h2⟩, ?_, ?_, ?_⟩
  · intro now b hlt
    exact call_open_rejects _ now b l h1 h2 (by omega)
  · intro now hge
    exact call_open_elapsed_success _ now l h1 h2 (by omega)
  · intro cb2 now2 h
    exact call_half_open_success cb2 now2 h

theorem C2_breaker_trip_and_recover_witness :
    ((((CircuitBreaker.init 3 30).failCalls [1, 2, 3]).state = .OPEN ∧
      ((CircuitBreaker.init 3 30).failCalls [1, 2, 3]).last_failure_time = some 3) ∧
    (∀ now b, now - 3 < (CircuitBreaker.init 3 30).reset_timeout →
      ((CircuitBreaker.init 3 30).failCalls [1, 2, 3]).call now b =
        (.circuitOpenError, { (CircuitBreaker.init 3 30).failCalls [1, 2, 3] with
          total_requests :=
            ((CircuitBreaker.init 3 30).failCalls [1, 2, 3]).total_requests + 1 })) ∧
    (∀ now, (CircuitBreaker.init 3 30).reset_timeout ≤ now - 3 →
      ((((CircuitBreaker.init 3 30).failCalls [1, 2, 3]).call now true).1 = .ok ∧
        (((CircuitBreaker.init 3 30).failCalls [1, 2, 3]).call now true).2.state = .CLOSED ∧
        (((CircuitBreaker.init 3 30).failCalls [1, 2, 3]).call now true).2.failure_count = 0)) ∧
    (∀ cb2 : CircuitBreaker, ∀ now2, cb2.state = .HALF_OPEN →
      ((cb2.call now2 true).1 = .ok ∧ (cb2.call now2 true).2.state = .CLOSED ∧
        (cb2.call now2 true).2.failure_count = 0))) :=
  C2_breaker_trip_and_recover (CircuitBreaker.init 3 30) [1, 2, 3] 3 rfl rfl rfl rfl

/-! ### Grid data model (duck-typed dicts in the Python source)

A child dict always carries a `text` key (defaulted to `""` by every
consumer via `child.get('text', '')`) and an `id` key whose value may be
`None`; grids analogously. -/

structure Child where
  id : Option String
  text : String
deriving DecidableEq, Repr

structure Grid where
  id : Option String
  totalChildren : Nat
  gridText : Option String
  children : List Child
deriving DecidableEq, Repr

structure GridStructure where
  totalGrids : Nat
  grids : List Grid
deriving DecidableEq, Repr

/-! ### Response sanitizer (`sanitize_llm_response`, main.py lines 2024-2045)

The Python code extracts every non-overlapping occurrence of the regex
`g\d+c\d+` from the raw model text, keeps only those in the set of valid
child ids of the cleaned grid, deduplicates preserving first-seen order,
and joins the survivors with newlines. -/

/-- Match the regex `g\d+c\d+` at the head of the character list:
a literal `g`, one or more digits (greedy), a literal `c`, one or more
digits (greedy).  Returns the matched token and the rest of the input.
(`\d` is modelled as the ASCII digits; valid child ids only ever use
those.) -/
def matchIdAt : List Char → Option (String × List Char)
  | 'g' :: rest =>
    let ds1 := rest.takeWhile Char.isDigit
    let r1 := rest.dropWhile Char.isDigit
    if ds1.isEmpty then none
    else
      match r1 with
      | 'c' :: r2 =>
        let ds2 := r2.takeWhile Char.isDigit
        let r3 := r2.dropWhile Char.isDigit
        if ds2.isEmpty then none
        else some (String.mk ('g' :: ds1 ++ 'c' :: ds2), r3)
      | _ => none
  | _ => none

theorem matchIdAt_shrinks {l : List Char} {s : String} {r : List Char}
    (h : matchIdAt l = some (s, r)) : r.length < l.length := by
  match l with
  | [] => simp [matchIdAt] at h
  | c :: rest =>
    by_cases hc : c = 'g'
    · subst hc
      simp only [matchIdAt] at h
      by_cases h1 : (rest.takeWhile Char.isDigit).isEmpty
      · simp [h1] at h
      · simp only [h1, if_false, Bool.false_eq_true] at h
        match hr : rest.dropWhile Char.isDigit with
        | [] => rw [hr] at h; simp at h
        | c2 :: r2 =>
          rw [hr] at h
          by_cases hc2 : c2 = 'c'
          · subst hc2
            by_cases h2 : (r2.takeWhile Char.isDigit).isEmpty
            · simp [h2] at h
            · simp only [h2, if_false, Bool.false_eq_true, Option.some.injEq, Prod.mk.injEq] at h
              have hlen1 : (rest.dropWhile Char.isDigit).length ≤ rest.length :=
                (List.dropWhile_sublist _).length_le
              have hlen2 : (r2.dropWhile Char.isDigit).length ≤ r2.length :=
                (List.dropWhile_sublist _).length_le
              rw [hr] at hlen1
              simp only [List.length_cons] at hlen1
              have : r = r2.dropWhile Char.isDigit := h.2.symm
              subst this
              simp only [List.length_cons]
              omega
          · have : ¬ (c2 = 'c') := hc2
            simp [this] at h
    · simp [matchIdAt, hc] at h

/-- `re.findall(r"g\d+c\d+", text)`: scan left to right, emitting each
non-overlapping leftmost match and resuming after it, otherwise
advancing one character. -/
def findIds (l : List Char) : List String :=
  match h : matchIdAt l with
  | some (s, r) => s :: findIds r
  | none =>
    match l with
    | [] => []
    | _ :: rest => findIds rest
termination_by l.length
decreasing_by
  · exact matchIdAt_shrinks h
  · simp

/-- `get_valid_child_ids` (main.py lines 1886-1893), also the set
collection inside `sanitize_llm_response`: every non-`None` child id of
the cleaned grid, in traversal order. -/
def get_valid_child_ids (cleaned : GridStructure) : List String :=
  cleaned.grids.flatMap (fun grid => grid.children.filterMap (fun child => child.id))

/-- The filter-and-deduplicate loop of `sanitize_llm_response`: keep a
token iff it is a valid id not seen before, remembering seen tokens. -/
def filterValidIds (valid : List String) (seen : List String) : List String → List String
  | [] => []
  | cid :: ids =>
    if cid ∈ valid ∧ cid ∉ seen then
      cid :: filterValidIds valid (cid :: seen) ids
    else
      filterValidIds valid seen ids

/-- The list of ids produced by `sanitize_llm_response` before joining. -/
def sanitizedIds (text : String) (cleaned : GridStructure) : List String :=
  filterValidIds (get_valid_child_ids cleaned) [] (findIds text.toList)

/-- `sanitize_llm_response` (main.py lines 2024-2045). -/
def sanitize_llm_response (text : String) (cleaned : GridStructure) : String :=
  String.intercalate "\n" (sanitizedIds text cleaned)

/-- Combined invariant of the filter-and-deduplicate loop:
membership characterisation, no duplicates, and strictly increasing
first-occurrence positions in the scanned token list. -/
theorem filterValidIds_spec (valid : List String) (ids : List String) :
    ∀ seen : List String,
      (∀ x, x ∈ filterValidIds valid seen ids ↔ (x ∈ ids ∧ x ∈ valid ∧ x ∉ seen)) ∧
      (filterValidIds valid seen ids).Nodup ∧
      (filterValidIds valid seen ids).Pairwise
        (fun a b => List.indexOf a ids < List.indexOf b ids) := by
  induction ids with
  | nil => intro seen; simp [filterValidIds]
  | cons cid ids ih =>
    intro seen
    by_cases hin : cid ∈ valid ∧ cid ∉ seen
    · have ihc := ih (cid :: seen)
      obtain ⟨ihmem, ihnd, ihpw⟩ := ihc
      simp only [filterValidIds, if_pos hin]
      refine ⟨?_, ?_, ?_⟩
      · intro x
        rw [List.mem_cons, ihmem x]
        constructor
        · rintro (rfl | ⟨hx1, hx2, hx3⟩)
          · exact ⟨List.mem_cons_self _ _, hin.1, hin.2⟩
          · exact ⟨List.mem_cons_of_mem _ hx1, hx2, fun hs => hx3 (List.mem_cons_of_mem _ hs)⟩
        · rintro ⟨hx1, hx2, hx3⟩
          by_cases hxc : x = cid
          · exact Or.inl hxc
          · refine Or.inr ⟨?_, hx2, ?_⟩
            · rcases List.mem_cons.mp hx1 with h | h
              · exact absurd h hxc
              · exact h
            · intro hs
              rcases List.mem_cons.mp hs with h | h
              · exact hxc h
              · exact hx3 h
      · refine List.nodup_cons.mpr ⟨?_, ihnd⟩
        intro hmem
        have := (ihmem cid).mp hmem
        exact this.2.2 (List.mem_cons_self _ _)
      · refine List.pairwise_cons.mpr ⟨?_, ?_⟩
        · intro b hb
          have hbne : b ≠ cid := by
            intro hbc
            exact ((ihmem b).mp hb).2.2 (hbc ▸ List.mem_cons_self _ _)
          rw [List.indexOf_cons_self, List.indexOf_cons_ne _ (fun h => hbne h.symm)]
          exact Nat.succ_pos _
        · refine ihpw.imp_of_mem ?_
          intro a b ha hb hab
          have hane : a ≠ cid := by
            intro hac
            exact ((ihmem a).mp ha).2.2 (hac ▸ List.mem_cons_self _ _)
          have hbne : b ≠ cid := by
            intro hbc
            exact ((ihmem b).mp hb).2.2 (hbc ▸ List.mem_cons_self _ _)
          rw [List.indexOf_cons_ne _ (fun h => hane h.symm),
            List.indexOf_cons_ne _ (fun h => hbne h.symm)]
          omega
    · have ihc := ih seen
      obtain ⟨ihmem, ihnd, ihpw⟩ := ihc
      simp only [filterValidIds, if_neg hin]
      refine ⟨?_, ihnd, ?_⟩
      · intro x
        rw [ihmem x]
        constructor
        · rintro ⟨hx1, hx2, hx3⟩
          exact ⟨List.mem_cons_of_mem _ hx1, hx2, hx3⟩
        · rintro ⟨hx1, hx2, hx3⟩
          refine ⟨?_, hx2, hx3⟩
          rcases List.mem_cons.mp hx1 with h | h
          · subst h; exact absurd ⟨hx2, hx3⟩ hin
          · exact h
      · refine ihpw.imp_of_mem ?_
        intro a b ha hb hab
        have hane : a ≠ cid := by
          intro hac
          obtain ⟨_, ha2, ha3⟩ := (ihmem a).mp ha
          exact hin ⟨hac ▸ ha2, hac ▸ ha3⟩
        have hbne : b ≠ cid := by
          intro hbc
          obtain ⟨_, hb2, hb3⟩ := (ihmem b).mp hb
          exact hin ⟨hbc ▸ hb2, hbc ▸ hb3⟩
        rw [List.indexOf_cons_ne _ (fun h => hane h.symm),
          List.indexOf_cons_ne _ (fun h => hbne h.symm)]
        omega

/-- C3: the sanitizer returns only ids present in the valid-id set of
the cleaned grid, never duplicates an id, lists them in strictly
increasing order of first occurrence among the id-shaped tokens of the
raw text, and returns the empty list both on empty input and when no
extracted token is a valid id. -/
theorem C3_sanitizer_safety (text : String) (cleaned : GridStructure) :
    (∀ x ∈ sanitizedIds text cleaned, x ∈ get_valid_child_ids cleaned) ∧
    (sanitizedIds text cleaned).Nodup ∧
    (sanitizedIds text cleaned).Pairwise
      (fun a b => List.indexOf a (findIds text.toList) < List.indexOf b (findIds text.toList)) ∧
    (∀ x, x ∈ sanitizedIds text cleaned ↔
      (x ∈ findIds text.toList ∧ x ∈ get_valid_child_ids cleaned)) ∧
    (text = "" → sanitizedIds text cleaned = []) ∧
    ((∀ x ∈ findIds text.toList, x ∉ get_valid_child_ids cleaned) →
      sanitizedIds text cleaned = []) := by
  obtain ⟨hmem, hnd, hpw⟩ :=
    filterValidIds_spec (get_valid_child_ids cleaned) (findIds text.toList) []
  have hmem' : ∀ x, x ∈ sanitizedIds text cleaned ↔
      (x ∈ findIds text.toList ∧ x ∈ get_valid_child_ids cleaned) := by
    intro x
    rw [sanitizedIds, hmem x]
    simp
  refine ⟨fun x hx => ((hmem' x).mp hx).2, hnd, hpw, hmem', ?_, ?_⟩
  · intro h
    subst h
    have hfe : findIds ("" : String).toList = [] := by
      have h0 : ("" : String).toList = [] := rfl
      rw [h0]
      unfold findIds
      rfl
    rw [List.eq_nil_iff_forall_not_mem]
    intro x hx
    have hx1 := ((hmem' x).mp hx).1
    rw [hfe] at hx1
    exact absurd hx1 (List.not_mem_nil x)
  · intro h
    rcases hempty : sanitizedIds text cleaned with _ | ⟨x, xs⟩
    · rfl
    · have hx : x ∈ sanitizedIds text cleaned := by rw [hempty]; exact List.mem_cons_self _ _
      obtain ⟨h1, h2⟩ := (hmem' x).mp hx
      exact absurd h2 (h x h1)

/-! ### Rule-based fallback filter (`apply_rule_based_filtering`,
main.py lines 643-668) -/

/-- `any(term.lower() in child_text for term in terms)` where
`child_text` is the already-lowercased child text. -/
def termMatch (terms : List String) (loweredText : String) : Bool :=
  terms.any (fun term => pyIn (pyLower term) loweredText)

/-- Per-child body of the `apply_rule_based_filtering` loops: skip
children with a falsy id (`None` or `""`), keep whitelisted children,
hide blacklisted ones. -/
def childRuleHide (whitelist blacklist : List String) (child : Child) : List String :=
  let child_text := pyLower child.text
  match child.id with
  | none => []
  | some cid =>
    if cid = "" then []
    else if termMatch whitelist child_text then []
    else if termMatch blacklist child_text then [cid]
    else []

/-- `apply_rule_based_filtering` (main.py lines 643-668): the flat list
of child ids to hide, in traversal order. -/
def apply_rule_based_filtering (cleaned : GridStructure) (whitelist blacklist : List String) :
    List String :=
  cleaned.grids.flatMap (fun grid => grid.children.flatMap (childRuleHide whitelist blacklist))

theorem childRuleHide_mem {wl bl : List String} {child : Child} {cid : String}
    (h : cid ∈ childRuleHide wl bl child) :
    child.id = some cid ∧ cid ≠ "" ∧
    termMatch wl (pyLower child.text) = false ∧
    termMatch bl (pyLower child.text) = true := by
  unfold childRuleHide at h
  match hid : child.id with
  | none => rw [hid] at h; simp at h
  | some c =>
    rw [hid] at h
    simp only at h
    by_cases hce : c = ""
    · simp [hce] at h
    · rw [if_neg hce] at h
      by_cases hw : termMatch wl (pyLower child.text)
      · simp [hw] at h
      · rw [if_neg hw] at h
        by_cases hb : termMatch bl (pyLower child.text)
        · rw [if_pos hb] at h
          simp only [List.mem_singleton] at h
          subst h
          exact ⟨rfl, hce, by simpa using hw, hb⟩
        · simp [hb] at h

/-- C4: a child whose text contains (case-insensitively) both some
whitelist term and some blacklist term is never hidden by the
rule-based fallback — the whitelist check wins.  The hypothesis
`huniq` is the data-model invariant that the child's id identifies it
uniquely in the grid structure. -/
theorem C4_whitelist_precedence (cleaned : GridStructure) (whitelist blacklist : List String)
    (grid : Grid) (child : Child) (cid : String)
    (hg : grid ∈ cleaned.grids) (hc : child ∈ grid.children)
    (hid : child.id = some cid)
    (huniq : ∀ gr ∈ cleaned.grids, ∀ ch ∈ gr.children, ch.id = some cid → ch = child)
    (hw : ∃ term ∈ whitelist, pyIn (pyLower term) (pyLower child.text) = true)
    (hb : ∃ term ∈ blacklist, pyIn (pyLower term) (pyLower child.text) = true) :
    cid ∉ apply_rule_based_filtering cleaned whitelist blacklist := by
  intro hmem
  unfold apply_rule_based_filtering at hmem
  rw [List.mem_flatMap] at hmem
  obtain ⟨gr, hgr, hmem⟩ := hmem
  rw [List.mem_flatMap] at hmem
  obtain ⟨ch, hch, hmem⟩ := hmem
  obtain ⟨hchid, _, hchw, _⟩ := childRuleHide_mem hmem
  have hch_eq : ch = child := huniq gr hgr ch hch hchid
  subst hch_eq
  have hwl : termMatch whitelist (pyLower ch.text) = true := by
    rw [termMatch, List.any_eq_true]
    obtain ⟨term, ht1, ht2⟩ := hw
    exact ⟨term, ht1, ht2⟩
  rw [hwl] at hchw
  exact Bool.noConfusion hchw

theorem C4_whitelist_precedence_witness :
    "g1c0" ∉ apply_rule_based_filtering
      ⟨1, [⟨some "g1", 2, none,
        [⟨some "g1c0", "GOOD dogs here"⟩, ⟨some "g1c1", "dogs only"⟩]⟩]⟩
      ["good"] ["dogs"] :=
  C4_whitelist_precedence
    ⟨1, [⟨some "g1", 2, none,
      [⟨some "g1c0", "GOOD dogs here"⟩, ⟨some "g1c1", "dogs only"⟩]⟩]⟩
    ["good"] ["dogs"]
    ⟨some "g1", 2, none, [⟨some "g1c0", "GOOD dogs here"⟩, ⟨some "g1c1", "dogs only"⟩]⟩
    ⟨some "g1c0", "GOOD dogs here"⟩ "g1c0"
    (by decide) (by decide) (by decide) (by decide)
    ⟨"good", by decide, by decide⟩ ⟨"dogs", by decide, by decide⟩

/-! ### Final keyword fallback (`fallback_keyword_matching`,
main.py lines 2180-2203)

The function returns a list of single-key dicts `{grid_id: [child_id]}`,
one per blacklisted child.  On a blacklisted child whose id is `None`,
the Python expression `'c' in child_id` raises `TypeError`; this is
modelled with `Except`. -/

/-- `{grid_id: [list of child ids]}`: one single-key object of the wire
format. -/
structure DecisionEntry where
  gridId : String
  childIds : List String
deriving DecidableEq, Repr

/-- The wire-level decision: an array of single-key objects. -/
abbrev DecisionJson := List DecisionEntry

/-- `child_id.split('c')[0]`: the prefix of the id before its first
`c`. -/
def splitHeadC (cid : String) : String :=
  String.mk (cid.toList.takeWhile (fun ch => ch ≠ 'c'))

/-- Inner loop of `fallback_keyword_matching` over one grid's children. -/
def fkmChildren (blacklist_lower : List String) (grid : Grid) :
    List Child → Except Unit (List DecisionEntry)
  | [] => .ok []
  | child :: rest =>
    let child_text := pyLower child.text
    if blacklist_lower.any (fun keyword => pyIn keyword child_text) then
      match child.id with
      | none => .error ()
      | some cid =>
        let grid_id := if pyIn "c" cid then splitHeadC cid else grid.id.getD "g1"
        match fkmChildren blacklist_lower grid rest with
        | .error e => .error e
        | .ok tail => .ok (⟨grid_id, [cid]⟩ :: tail)
    else fkmChildren blacklist_lower grid rest

/-- Outer loop of `fallback_keyword_matching` over the grids. -/
def fkmGrids (blacklist_lower : List String) : List Grid → Except Unit (List DecisionEntry)
  | [] => .ok []
  | grid :: rest =>
    match fkmChildren blacklist_lower grid grid.children with
    | .error e => .error e
    | .ok r1 =>
      match fkmGrids blacklist_lower rest with
      | .error e => .error e
      | .ok r2 => .ok (r1 ++ r2)

/-- `fallback_keyword_matching` (main.py lines 2180-2203). -/
def fallback_keyword_matching (cleaned : GridStructure) (blacklist : List String) :
    Except Unit DecisionJson :=
  if blacklist.isEmpty ∨ cleaned.grids.isEmpty then .ok []
  else fkmGrids (blacklist.map pyLower) cleaned.grids

/-- All child ids named by a wire-level decision, in order. -/
def decisionChildIds (d : DecisionJson) : List String :=
  d.flatMap (fun e => e.childIds)

/-- The grid used in the C5/C6 counterexamples. -/
def cgC5 : GridStructure :=
  ⟨1, [⟨some "g1", 1, none, [⟨some "g1c0", "cats dogs"⟩]⟩]⟩

/-- C5: the claim as stated is false.  On a child matching both the
whitelist (`"cats"`) and the blacklist (`"dogs"`), the final keyword
fallback hides the child while the rule-based strategy-3 filter keeps
it: the two do not compute the same result, because
`fallback_keyword_matching` ignores the whitelist. -/
theorem C5_counterexample :
    (fallback_keyword_matching cgC5 ["dogs"]).toOption.map decisionChildIds
      ≠ some (apply_rule_based_filtering cgC5 ["cats"] ["dogs"]) ∧
    (fallback_keyword_matching cgC5 ["dogs"]).toOption.map decisionChildIds
      = some ["g1c0"] ∧
    apply_rule_based_filtering cgC5 ["cats"] ["dogs"] = [] := by
  decide

theorem fkmChildren_ok (whitelist blacklist : List String) (grid : Grid)
    (children : List Child)
    (hids : ∀ ch ∈ children, ∃ cid, ch.id = some cid ∧ cid ≠ "")
    (hwl : ∀ ch ∈ children, termMatch whitelist (pyLower ch.text) = false) :
    ∃ entries, fkmChildren (blacklist.map pyLower) grid children = .ok entries ∧
      decisionChildIds entries = children.flatMap (childRuleHide whitelist blacklist) := by
  induction children with
  | nil => exact ⟨[], rfl, rfl⟩
  | cons ch rest ih =>
    obtain ⟨cid, hcid, hne⟩ := hids ch (List.mem_cons_self _ _)
    obtain ⟨tail, htail, htail_ids⟩ := ih
      (fun c hc => hids c (List.mem_cons_of_mem _ hc))
      (fun c hc => hwl c (List.mem_cons_of_mem _ hc))
    have hany : (blacklist.map pyLower).any (fun keyword => pyIn keyword (pyLower ch.text)) =
        termMatch blacklist (pyLower ch.text) := by
      rw [termMatch, List.any_map]
      rfl
    by_cases hb : termMatch blacklist (pyLower ch.text)
    · refine ⟨⟨if pyIn "c" cid then splitHeadC cid else grid.id.getD "g1", [cid]⟩ :: tail,
        ?_, ?_⟩
      · simp only [fkmChildren, hany, hb, if_true, hcid, htail]
      · simp only [decisionChildIds, List.flatMap_cons] at htail_ids ⊢
        rw [htail_ids, childRuleHide, hcid]
        simp only [if_neg hne, hwl ch (List.mem_cons_self _ _), Bool.false_eq_true, if_false,
          hb, if_true]
    · refine ⟨tail, ?_, ?_⟩
      · simp only [fkmChildren, hany]
        rw [if_neg hb, htail]
      · rw [htail_ids, List.flatMap_cons, childRuleHide, hcid]
        simp only [if_neg hne, hwl ch (List.mem_cons_self _ _), Bool.false_eq_true, if_false]
        rw [if_neg hb]
        rfl

theorem fkmGrids_ok (whitelist blacklist : List String) (grids : List Grid)
    (hids : ∀ gr ∈ grids, ∀ ch ∈ gr.children, ∃ cid, ch.id = some cid ∧ cid ≠ "")
    (hwl : ∀ gr ∈ grids, ∀ ch ∈ gr.children, termMatch whitelist (pyLower ch.text) = false) :
    ∃ entries, fkmGrids (blacklist.map pyLower) grids = .ok entries ∧
      decisionChildIds entries =
        grids.flatMap (fun gr => gr.children.flatMap (childRuleHide whitelist blacklist)) := by
  induction grids with
  | nil => exact ⟨[], rfl, rfl⟩
  | cons gr rest ih =>
    obtain ⟨e1, he1, he1_ids⟩ := fkmChildren_ok whitelist blacklist gr gr.children
      (hids gr (List.mem_cons_self _ _)) (hwl gr (List.mem_cons_self _ _))
    obtain ⟨e2, he2, he2_ids⟩ := ih
      (fun g hg => hids g (List.mem_cons_of_mem _ hg))
      (fun g hg => hwl g (List.mem_cons_of_mem _ hg))
    refine ⟨e1 ++ e2, ?_, ?_⟩
    · simp only [fkmGrids, he1, he2]
    · rw [decisionChildIds, List.flatMap_append, List.flatMap_cons]
      rw [decisionChildIds] at he1_ids he2_ids
      rw [he1_ids, he2_ids]

/-- C5 (amended): the final keyword fallback agrees with the rule-based
strategy-3 filter exactly on inputs where the whitelist is inert: if
every child carries a non-empty id and no child's text matches any
whitelist term, the ids hidden by `fallback_keyword_matching` are, in
order, those hidden by `apply_rule_based_filtering`.  (On a child
matching both lists the two differ: the final fallback never consults
the whitelist — see the counterexample.) -/
theorem C5_fallback_equals_rule_based_when_whitelist_inert
    (cleaned : GridStructure) (whitelist blacklist : List String)
    (hids : ∀ gr ∈ cleaned.grids, ∀ ch ∈ gr.children, ∃ cid, ch.id = some cid ∧ cid ≠ "")
    (hwl : ∀ gr ∈ cleaned.grids, ∀ ch ∈ gr.children,
      termMatch whitelist (pyLower ch.text) = false) :
    (fallback_keyword_matching cleaned blacklist).toOption.map decisionChildIds =
      some (apply_rule_based_filtering cleaned whitelist blacklist) := by
  rw [fallback_keyword_matching]
  by_cases hempty : blacklist.isEmpty ∨ cleaned.grids.isEmpty
  · rw [if_pos hempty]
    have : apply_rule_based_filtering cleaned whitelist blacklist = [] := by
      rcases hempty with hb | hg
      · rw [apply_rule_based_filtering, List.flatMap_eq_nil_iff]
        intro gr _
        rw [List.flatMap_eq_nil_iff]
        intro ch _
        rw [childRuleHide]
        match ch.id with
        | none => rfl
        | some cid =>
          simp only
          by_cases hce : cid = ""
          · simp [hce]
          · rw [if_neg hce]
            have : termMatch blacklist (pyLower ch.text) = false := by
              rw [termMatch, List.isEmpty_iff.mp hb]
              rfl
            by_cases hw : termMatch whitelist (pyLower ch.text)
            · simp [hw]
            · simp [hw, this]
      · rw [apply_rule_based_filtering, List.isEmpty_iff.mp hg]
        rfl
    rw [this]
    rfl
  · rw [if_neg hempty]
    obtain ⟨entries, hent, hent_ids⟩ := fkmGrids_ok whitelist blacklist cleaned.grids hids hwl
    rw [hent]
    rw [apply_rule_based_filtering, ← hent_ids]
    rfl

theorem C5_fallback_equals_rule_based_when_whitelist_inert_witness :
    (fallback_keyword_matching
        ⟨1, [⟨some "g1", 2, none,
          [⟨some "g1c0", "dogs here"⟩, ⟨some "g1c1", "carousels in framer"⟩]⟩]⟩
        ["dogs"]).toOption.map decisionChildIds =
      some (apply_rule_based_filtering
        ⟨1, [⟨some "g1", 2, none,
          [⟨some "g1c0", "dogs here"⟩, ⟨some "g1c1", "carousels in framer"⟩]⟩]⟩
        ["cats"] ["dogs"]) :=
  C5_fallback_equals_rule_based_when_whitelist_inert
    ⟨1, [⟨some "g1", 2, none,
      [⟨some "g1c0", "dogs here"⟩, ⟨some "g1c1", "carousels in framer"⟩]⟩]⟩
    ["cats"] ["dogs"] (by decide) (by decide)

/-! ### Wire-format conversion (`convert_newline_format_to_json`,
main.py lines 2205-2232)

The Python function groups the newline-separated child ids into an
insertion-ordered dict `grid_map` and emits one `{grid_id: children}`
object per key. -/

/-- Append `cid` to the entry for `gid` of the insertion-ordered map,
creating the entry at the end when absent — the behaviour of
`grid_map[grid_id].append(child_id)` after the `if grid_id not in
grid_map` guard. -/
def gmInsert (m : List (String × List String)) (gid cid : String) :
    List (String × List String) :=
  match m with
  | [] => [(gid, [cid])]
  | (k, v) :: rest =>
    if k = gid then (k, v ++ [cid]) :: rest else (k, v) :: gmInsert rest gid cid

/-- The grouping loop of `convert_newline_format_to_json`: ids without a
`c` are skipped. -/
def buildGridMap : List (String × List String) → List String → List (String × List String)
  | m, [] => m
  | m, cid :: rest =>
    if pyIn "c" cid then buildGridMap (gmInsert m (splitHeadC cid) cid) rest
    else buildGridMap m rest

/-- The cleaned id list of `convert_newline_format_to_json`:
`[child.strip() for child in newline_format.split('\n') if child.strip()]`. -/
def convertCleanIds (newline_format : String) : List String :=
  ((pySplitLines newline_format).map pyStrip).filter (fun x => !x.isEmpty)

/-- `convert_newline_format_to_json` (main.py lines 2205-2232). -/
def convert_newline_format_to_json (newline_format : String) : DecisionJson :=
  if (pyStrip newline_format).isEmpty then []
  else (buildGridMap [] (convertCleanIds newline_format)).map (fun p => ⟨p.1, p.2⟩)

/-- Ordered-dict lookup on the grouping map. -/
def gmLookup : List (String × List String) → String → Option (List String)
  | [], _ => none
  | (k, v) :: rest, gid => if k = gid then some v else gmLookup rest gid

theorem gmLookup_isSome_iff (m : List (String × List String)) (gid : String) :
    (gmLookup m gid).isSome = true ↔ gid ∈ m.map Prod.fst := by
  induction m with
  | nil => simp [gmLookup]
  | cons q rest ih =>
    obtain ⟨k, v⟩ := q
    by_cases h : k = gid
    · simp [gmLookup, h]
    · rw [gmLookup, if_neg h, List.map_cons, List.mem_cons, ih]
      constructor
      · exact Or.inr
      · rintro (hh | hh)
        · exact absurd hh.symm h
        · exact hh

theorem gmLookup_of_mem (m : List (String × List String)) (p : String × List String)
    (hnd : (m.map Prod.fst).Nodup) (hp : p ∈ m) : gmLookup m p.1 = some p.2 := by
  induction m with
  | nil => simp at hp
  | cons q rest ih =>
    obtain ⟨k, v⟩ := q
    rcases List.mem_cons.mp hp with h | h
    · subst h
      simp [gmLookup]
    · have hq : k ∉ rest.map Prod.fst := by
        have := (List.nodup_cons.mp hnd).1
        simpa using this
      have hne : k ≠ p.1 := by
        intro he
        exact hq (he ▸ List.mem_map_of_mem Prod.fst h)
      rw [gmLookup, if_neg hne]
      exact ih (List.nodup_cons.mp hnd).2 h

theorem gmInsert_lookup (m : List (String × List String)) (g cid : String) (gid : String) :
    gmLookup (gmInsert m g cid) gid =
      if gid = g then some ((gmLookup m g).getD [] ++ [cid]) else gmLookup m gid := by
  induction m with
  | nil =>
    by_cases h : gid = g
    · subst h
      simp [gmInsert, gmLookup]
    · rw [gmInsert, if_neg h]
      simp only [gmLookup]
      rw [if_neg (fun he => h he.symm)]
  | cons q rest ih =>
    obtain ⟨k, v⟩ := q
    rw [gmInsert]
    by_cases hk : k = g
    · rw [if_pos hk]
      by_cases hg : gid = g
      · have hkgid : k = gid := by rw [hk, hg]
        rw [if_pos hg]
        simp only [gmLookup, if_pos hkgid, if_pos hk, Option.getD_some]
      · have hkgid : ¬ k = gid := fun he => hg (by rw [← he, hk])
        rw [if_neg hg]
        simp only [gmLookup, if_neg hkgid]
    · rw [if_neg hk]
      simp only [gmLookup]
      by_cases hkgid : k = gid
      · have hg : ¬ gid = g := fun he => hk (by rw [hkgid, he])
        rw [if_pos hkgid, if_neg hg, if_pos hkgid]
      · rw [if_neg hkgid, if_neg hkgid, if_neg hk, ih]

theorem gmInsert_keys (m : List (String × List String)) (g cid : String) :
    (gmInsert m g cid).map Prod.fst =
      if g ∈ m.map Prod.fst then m.map Prod.fst else m.map Prod.fst ++ [g] := by
  induction m with
  | nil => simp [gmInsert]
  | cons q rest ih =>
    obtain ⟨k, v⟩ := q
    by_cases hk : k = g
    · subst hk
      simp [gmInsert]
    · rw [gmInsert, if_neg hk, List.map_cons, List.map_cons, ih]
      by_cases hg : g ∈ rest.map Prod.fst
      · rw [if_pos hg, if_pos (List.mem_cons_of_mem _ hg)]
      · rw [if_neg hg, if_neg ?_]
        · simp
        · intro hmem
          rcases List.mem_cons.mp hmem with h | h
          · exact hk h.symm
          · exact hg h

theorem gmInsert_keys_nodup (m : List (String × List String)) (g cid : String)
    (hnd : (m.map Prod.fst).Nodup) : ((gmInsert m g cid).map Prod.fst).Nodup := by
  rw [gmInsert_keys]
  by_cases hg : g ∈ m.map Prod.fst
  · rwa [if_pos hg]
  · rw [if_neg hg]
    rw [List.nodup_append]
    refine ⟨hnd, List.nodup_singleton g, ?_⟩
    intro a ha hb
    have hb' : a = g := by simpa using hb
    exact hg (hb' ▸ ha)

/-- Invariant of the grouping fold: the accumulated map has distinct
keys, and looking up `gid` yields exactly the id-bearing tokens whose
grid prefix is `gid`, in input order (absent when there are none). -/
theorem buildGridMap_invariant (ids : List String) :
    ∀ (m : List (String × List String)) (done : List String),
      (m.map Prod.fst).Nodup →
      (∀ gid, gmLookup m gid =
        (if ((done.filter (fun cid => pyIn "c" cid)).filter
              (fun cid => splitHeadC cid == gid)).isEmpty then none
         else some ((done.filter (fun cid => pyIn "c" cid)).filter
              (fun cid => splitHeadC cid == gid)))) →
      ((buildGridMap m ids).map Prod.fst).Nodup ∧
      (∀ gid, gmLookup (buildGridMap m ids) gid =
        (if (((done ++ ids).filter (fun cid => pyIn "c" cid)).filter
              (fun cid => splitHeadC cid == gid)).isEmpty then none
         else some (((done ++ ids).filter (fun cid => pyIn "c" cid)).filter
              (fun cid => splitHeadC cid == gid)))) := by
  induction ids with
  | nil =>
    intro m done hnd hinv
    rw [buildGridMap]
    refine ⟨hnd, ?_⟩
    intro gid
    rw [List.append_nil]
    exact hinv gid
  | cons cid rest ih =>
    intro m done hnd hinv
    have hsplit : done ++ cid :: rest = (done ++ [cid]) ++ rest := by
      simp
    rw [hsplit]
    by_cases hc : pyIn "c" cid = true
    · rw [buildGridMap, if_pos hc]
      refine ih (gmInsert m (splitHeadC cid) cid) (done ++ [cid])
        (gmInsert_keys_nodup m _ cid hnd) ?_
      intro gid
      rw [gmInsert_lookup]
      have hfil : (done ++ [cid]).filter (fun c => pyIn "c" c) =
          done.filter (fun c => pyIn "c" c) ++ [cid] := by
        rw [List.filter_append]
        simp [hc]
      rw [hfil, List.filter_append]
      by_cases hgid : gid = splitHeadC cid
      · rw [if_pos hgid]
        have : ([cid].filter (fun c => splitHeadC c == gid)) = [cid] := by
          simp [hgid]
        rw [this]
        rw [if_neg (by simp [List.isEmpty_iff])]
        congr 1
        rw [← hgid, hinv gid]
        by_cases hv : ((done.filter (fun c => pyIn "c" c)).filter
            (fun c => splitHeadC c == gid)).isEmpty = true
        · rw [if_pos hv, Option.getD_none, List.isEmpty_iff.mp hv]
        · rw [if_neg hv, Option.getD_some]
      · rw [if_neg hgid]
        have : ([cid].filter (fun c => splitHeadC c == gid)) = [] := by
          simp
          exact fun he => hgid he.symm
        rw [this, List.append_nil]
        exact hinv gid
    · rw [buildGridMap, if_neg hc]
      refine ih m (done ++ [cid]) hnd ?_
      intro gid
      have hfil : (done ++ [cid]).filter (fun c => pyIn "c" c) =
          done.filter (fun c => pyIn "c" c) := by
        rw [List.filter_append]
        simp [hc]
      rw [hfil]
      exact hinv gid

theorem buildGridMap_full (ids : List String) :
    ((buildGridMap [] ids).map Prod.fst).Nodup ∧
    (∀ gid, gmLookup (buildGridMap [] ids) gid =
      (if ((ids.filter (fun cid => pyIn "c" cid)).filter
            (fun cid => splitHeadC cid == gid)).isEmpty then none
       else some ((ids.filter (fun cid => pyIn "c" cid)).filter
            (fun cid => splitHeadC cid == gid)))) := by
  have h := buildGridMap_invariant ids [] [] (by simp) (by intro gid; simp [gmLookup])
  simpa using h

theorem fkmChildren_singletons (bl : List String) (grid : Grid) (children : List Child)
    (entries : List DecisionEntry) (h : fkmChildren bl grid children = .ok entries) :
    ∀ e ∈ entries, ∃ cid, e.childIds = [cid] := by
  induction children generalizing entries with
  | nil =>
    rw [fkmChildren] at h
    cases h
    simp
  | cons ch rest ih =>
    rw [fkmChildren] at h
    by_cases hb : bl.any (fun keyword => pyIn keyword (pyLower ch.text)) = true
    · rw [if_pos hb] at h
      match hid : ch.id with
      | none => rw [hid] at h; cases h
      | some cid =>
        rw [hid] at h
        simp only at h
        match hrec : fkmChildren bl grid rest with
        | .error e => rw [hrec] at h; cases h
        | .ok tail =>
          rw [hrec] at h
          cases h
          intro e he
          rcases List.mem_cons.mp he with h | h
          · subst h; exact ⟨cid, rfl⟩
          · exact ih tail hrec e h
    · rw [if_neg hb] at h
      exact ih entries h

theorem fkmGrids_singletons (bl : List String) (grids : List Grid)
    (entries : List DecisionEntry) (h : fkmGrids bl grids = .ok entries) :
    ∀ e ∈ entries, ∃ cid, e.childIds = [cid] := by
  induction grids generalizing entries with
  | nil =>
    rw [fkmGrids] at h
    cases h
    simp
  | cons gr rest ih =>
    rw [fkmGrids] at h
    match h1 : fkmChildren bl gr gr.children with
    | .error e => rw [h1] at h; cases h
    | .ok r1 =>
      rw [h1] at h
      match h2 : fkmGrids bl rest with
      | .error e => rw [h2] at h; cases h
      | .ok r2 =>
        rw [h2] at h
        cases h
        intro e he
        rcases List.mem_append.mp he with hh | hh
        · exact fkmChildren_singletons bl gr gr.children r1 h1 e hh
        · exact ih r2 h2 e hh

/-- C6: the claim as stated is false for decisions produced by the
keyword-matching fallback path: a grid with two blacklisted children
yields two single-key objects with the same grid id, not exactly one
object per grid. -/
theorem C6_counterexample :
    (fallback_keyword_matching
        ⟨1, [⟨some "g1", 2, none, [⟨some "g1c0", "xx a"⟩, ⟨some "g1c1", "xx b"⟩]⟩]⟩
        ["xx"]).toOption =
      some [⟨"g1", ["g1c0"]⟩, ⟨"g1", ["g1c1"]⟩] ∧
    ¬ (([⟨"g1", ["g1c0"]⟩, ⟨"g1", ["g1c1"]⟩] : DecisionJson).map
        DecisionEntry.gridId).Nodup := by
  decide

/-- C6 (amended): decisions produced through
`convert_newline_format_to_json` do satisfy the wire format — distinct
grid keys, one object per grid possessing a hidden child, each mapping
the grid id to the ordered non-empty list of its hidden child ids, and
`[]` on blank input; decisions produced by `fallback_keyword_matching`
are instead arrays of single-key objects with exactly one child id
each, one object per hidden child, so a grid with several hidden
children appears several times. -/
theorem C6_decision_format (s : String) :
    ((pyStrip s).isEmpty = true → convert_newline_format_to_json s = []) ∧
    ((pyStrip s).isEmpty = false →
      (((convert_newline_format_to_json s).map DecisionEntry.gridId).Nodup ∧
        (∀ e ∈ convert_newline_format_to_json s,
          e.childIds = ((convertCleanIds s).filter (fun cid => pyIn "c" cid)).filter
              (fun cid => splitHeadC cid == e.gridId) ∧
          e.childIds ≠ []) ∧
        (∀ gid, (gid ∈ (convert_newline_format_to_json s).map DecisionEntry.gridId) ↔
          ∃ cid ∈ (convertCleanIds s).filter (fun cid => pyIn "c" cid),
            splitHeadC cid = gid))) ∧
    (∀ (cleaned : GridStructure) (bl : List String) (d : DecisionJson),
      fallback_keyword_matching cleaned bl = .ok d →
      ∀ e ∈ d, ∃ cid, e.childIds = [cid]) := by
  obtain ⟨hnd, hlook⟩ := buildGridMap_full (convertCleanIds s)
  refine ⟨?_, ?_, ?_⟩
  · intro h
    rw [convert_newline_format_to_json, if_pos h]
  · intro h
    have hconv : convert_newline_format_to_json s =
        (buildGridMap [] (convertCleanIds s)).map (fun p => ⟨p.1, p.2⟩) := by
      rw [convert_newline_format_to_json, if_neg (by simp [h])]
    have hkeys : (convert_newline_format_to_json s).map DecisionEntry.gridId =
        (buildGridMap [] (convertCleanIds s)).map Prod.fst := by
      rw [hconv, List.map_map]
      rfl
    refine ⟨?_, ?_, ?_⟩
    · rw [hkeys]; exact hnd
    · intro e he
      rw [hconv, List.mem_map] at he
      obtain ⟨p, hp, hpe⟩ := he
      have hl := gmLookup_of_mem _ p hnd hp
      rw [hlook p.1] at hl
      by_cases hv : (((convertCleanIds s).filter (fun cid => pyIn "c" cid)).filter
          (fun cid => splitHeadC cid == p.1)).isEmpty
      · rw [if_pos hv] at hl; cases hl
      · rw [if_neg hv] at hl
        have hp2 : p.2 = ((convertCleanIds s).filter (fun cid => pyIn "c" cid)).filter
            (fun cid => splitHeadC cid == p.1) := by
          injection hl.symm
        constructor
        · rw [← hpe]
          simpa using hp2
        · rw [← hpe]
          simp only
          rw [hp2]
          intro hnil
          rw [hnil] at hv
          exact hv rfl
    · intro gid
      rw [hkeys, ← gmLookup_isSome_iff, hlook gid]
      by_cases hv : (((convertCleanIds s).filter (fun cid => pyIn "c" cid)).filter
          (fun cid => splitHeadC cid == gid)).isEmpty
      · rw [if_pos hv]
        simp only [Option.isSome_none, Bool.false_eq_true, false_iff]
        rintro ⟨cid, hc1, hc2⟩
        rw [List.isEmpty_iff, List.filter_eq_nil_iff] at hv
        exact hv cid hc1 (by simpa using hc2)
      · rw [if_neg hv]
        simp only [Option.isSome_some, true_iff]
        rw [List.isEmpty_iff] at hv
        obtain ⟨cid, hcid⟩ := List.exists_mem_of_ne_nil _ hv
        rw [List.mem_filter] at hcid
        exact ⟨cid, hcid.1, by simpa using hcid.2⟩
  · intro cleaned bl d hd
    rw [fallback_keyword_matching] at hd
    by_cases hempty : bl.isEmpty ∨ cleaned.grids.isEmpty
    · rw [if_pos hempty] at hd
      cases hd
      simp
    · rw [if_neg hempty] at hd
      exact fkmGrids_singletons _ _ d hd

/-! ### Multi-tier cache (`api_cache`, `cache_response`,
`cleanup_cache_if_needed`, `evict_from_tier`, main.py lines 240-495)

Tiers are insertion-ordered dicts, modelled as association lists.  The
`grid_signature` field stored by `cache_response` is always `None` in
the source (the guard `'cleaned_grid' in locals()` is false inside the
function), so it is omitted from the entry. -/

structure CacheEntry where
  response : DecisionJson
  timestamp : Nat
  access_count : Nat
deriving DecidableEq, Repr

structure ApiCache where
  responses : List (String × CacheEntry)
  max_size : Nat
  max_age : Nat
  hot_cache : List (String × CacheEntry)
  warm_cache : List (String × CacheEntry)
  cold_cache : List (String × CacheEntry)
  access_counts : List (String × Nat)
deriving DecidableEq, Repr

/-- Dict assignment `d[k] = v`: overwrite in place, else append. -/
def setAssoc {β : Type} : List (String × β) → String → β → List (String × β)
  | [], key, v => [(key, v)]
  | (k, w) :: rest, key, v =>
    if k = key then (key, v) :: rest else (k, w) :: setAssoc rest key v

/-- Dict lookup. -/
def lookupAssoc {β : Type} : List (String × β) → String → Option β
  | [], _ => none
  | (k, w) :: rest, key => if k = key then some w else lookupAssoc rest key

/-- The expiry sweep of `cleanup_cache_if_needed` on one tier: drop
entries with `now - timestamp > max_age`. -/
def expireTier (now max_age : Nat) (tier : List (String × CacheEntry)) :
    List (String × CacheEntry) :=
  tier.filter (fun p => !decide (now - p.2.timestamp > max_age))

/-- All four tiers expired, as the first loop of
`cleanup_cache_if_needed` does. -/
def expireAll (c : ApiCache) (now : Nat) : ApiCache :=
  { c with
    hot_cache := expireTier now c.max_age c.hot_cache
    warm_cache := expireTier now c.max_age c.warm_cache
    cold_cache := expireTier now c.max_age c.cold_cache
    responses := expireTier now c.max_age c.responses }

/-- `total_size`: the aggregate entry count over all four tiers. -/
def cacheTotalSize (c : ApiCache) : Nat :=
  c.hot_cache.length + c.warm_cache.length + c.cold_cache.length + c.responses.length

/-- Stable insertion into a timestamp-sorted list: the new element goes
after every element with a smaller-or-equal timestamp, matching the
stability of Python's `sorted`. -/
def insertByTs (p : String × CacheEntry) : List (String × CacheEntry) →
    List (String × CacheEntry)
  | [] => [p]
  | q :: rest =>
    if q.2.timestamp ≤ p.2.timestamp then q :: insertByTs p rest else p :: q :: rest

/-- `sorted(tier.items(), key=lambda x: x[1]['timestamp'])` (stable). -/
def sortByTs (l : List (String × CacheEntry)) : List (String × CacheEntry) :=
  l.foldl (fun acc p => insertByTs p acc) []

/-- `evict_from_tier` (main.py lines 483-495): clear the whole tier when
it has at most `count` entries, otherwise delete the keys of the
`count` oldest entries. -/
def evict_from_tier (tier : List (String × CacheEntry)) (count : Nat) :
    List (String × CacheEntry) :=
  if tier.length ≤ count then []
  else
    let victims := ((sortByTs tier).take count).map Prod.fst
    tier.filter (fun p => !victims.contains p.1)

/-- `cleanup_cache_if_needed` (main.py lines 457-481).  Note that
`total_size` is computed once, before any eviction, and the two later
`if total_size > max_size` checks reuse that stale value. -/
def cleanup_cache_if_needed (c : ApiCache) (now : Nat) : ApiCache :=
  let c1 := expireAll c now
  let total_size := cacheTotalSize c1
  if total_size > c1.max_size then
    let c2 := { c1 with cold_cache := evict_from_tier c1.cold_cache 20 }
    let c3 := if total_size > c2.max_size then
        { c2 with warm_cache := evict_from_tier c2.warm_cache 15 } else c2
    if total_size > c3.max_size then
      { c3 with hot_cache := evict_from_tier c3.hot_cache 10 } else c3
  else c1

/-- `cache_response` (main.py lines 423-455): cleanup, then place the
entry in a tier chosen from the key's historical access count, and
always mirror it into the legacy `responses` map. -/
def cache_response (c : ApiCache) (now : Nat) (cache_key : String)
    (response : DecisionJson) : ApiCache :=
  let c1 := cleanup_cache_if_needed c now
  let access_count := (lookupAssoc c1.access_counts cache_key).getD 0
  let cache_data : CacheEntry := ⟨response, now, access_count⟩
  let c2 :=
    if access_count ≥ 10 then
      { c1 with hot_cache := setAssoc c1.hot_cache cache_key cache_data }
    else if access_count ≥ 3 then
      { c1 with warm_cache := setAssoc c1.warm_cache cache_key cache_data }
    else
      { c1 with cold_cache := setAssoc c1.cold_cache cache_key cache_data }
  { c2 with responses := setAssoc c2.responses cache_key cache_data }

/-- Cold tier of 50 fresh entries with distinct keys and timestamps
0..49, over a capacity bound of 5. -/
def cacheC8 : ApiCache :=
  { responses := []
    max_size := 5
    max_age := 1800
    hot_cache := []
    warm_cache := []
    cold_cache := (List.range 50).map
      (fun i => (String.mk [Char.ofNat (65 + i)], ⟨[], i, 0⟩))
    access_counts := [] }

/-- C8: the claim as stated is false.  With 50 fresh cold entries and a
capacity bound of 5, one cleanup pass evicts only the 20 oldest cold
entries (the other tiers are empty and merely cleared), leaving 30
entries — still far above the bound: the pass does not continue until
the aggregate count is under the capacity bound. -/
theorem C8_counterexample :
    cacheC8.max_size = 5 ∧
    cacheTotalSize cacheC8 = 50 ∧
    cacheTotalSize (cleanup_cache_if_needed cacheC8 100) = 30 ∧
    cacheTotalSize (cleanup_cache_if_needed cacheC8 100) > cacheC8.max_size := by
  decide

/-- C8 (amended): after the expiry sweep, when the aggregate entry
count exceeds `max_size` a single cleanup pass evicts the (up to) 20
oldest cold entries, then — because the size check reuses the stale
pre-eviction total — always also the (up to) 15 oldest warm and 10
oldest hot entries, in that order; when the total is within the bound
nothing but expiry happens.  A pass may therefore terminate with the
aggregate count still above the bound (see the counterexample). -/
theorem C8_cleanup_fixed_eviction (c : ApiCache) (now : Nat) :
    (cacheTotalSize (expireAll c now) > c.max_size →
      cleanup_cache_if_needed c now =
        { expireAll c now with
          cold_cache := evict_from_tier (expireAll c now).cold_cache 20
          warm_cache := evict_from_tier (expireAll c now).warm_cache 15
          hot_cache := evict_from_tier (expireAll c now).hot_cache 10 }) ∧
    (¬ cacheTotalSize (expireAll c now) > c.max_size →
      cleanup_cache_if_needed c now = expireAll c now) := by
  have hms : (expireAll c now).max_size = c.max_size := rfl
  constructor
  · intro h
    rw [cleanup_cache_if_needed]
    simp only [hms]
    rw [if_pos h, if_pos h, if_pos h]
  · intro h
    rw [cleanup_cache_if_needed]
    simp only [hms]
    rw [if_neg h]

theorem C8_cleanup_fixed_eviction_witness :
    (cacheTotalSize (expireAll cacheC8 100) > cacheC8.max_size →
      cleanup_cache_if_needed cacheC8 100 =
        { expireAll cacheC8 100 with
          cold_cache := evict_from_tier (expireAll cacheC8 100).cold_cache 20
          warm_cache := evict_from_tier (expireAll cacheC8 100).warm_cache 15
          hot_cache := evict_from_tier (expireAll cacheC8 100).hot_cache 10 }) ∧
    (¬ cacheTotalSize (expireAll cacheC8 100) > cacheC8.max_size →
      cleanup_cache_if_needed cacheC8 100 = expireAll cacheC8 100) :=
  C8_cleanup_fixed_eviction cacheC8 100

/-! ### Rate limiter (`rate_limit_data`, `reset_rate_limit_if_needed`,
`track_ip_request`, main.py lines 228-271) -/

structure RateLimitData where
  ip_counts : List (String × Nat)
  last_reset : Nat
deriving DecidableEq, Repr

/-- `reset_rate_limit_if_needed` (main.py lines 251-257). -/
def reset_rate_limit_if_needed (r : RateLimitData) (now : Nat) : RateLimitData :=
  if now - r.last_reset ≥ 3600 then ⟨[], now⟩ else r

/-- `track_ip_request` (main.py lines 259-271): reset the window when
due, then increment and return the identity's counter.  The function is
a total state transformer — it never waits. -/
def track_ip_request (r : RateLimitData) (ip : String) (now : Nat) : Nat × RateLimitData :=
  let r1 := reset_rate_limit_if_needed r now
  let request_count := (lookupAssoc r1.ip_counts ip).getD 0 + 1
  (request_count, { r1 with ip_counts := setAssoc r1.ip_counts ip request_count })

/-- Iterate `track_ip_request` for one identity over a list of
timestamps. -/
def trackSeq (r : RateLimitData) (ip : String) : List Nat → RateLimitData
  | [] => r
  | t :: ts => trackSeq (track_ip_request r ip t).2 ip ts

theorem lookupAssoc_setAssoc_self {β : Type} (m : List (String × β)) (key : String) (v : β) :
    lookupAssoc (setAssoc m key v) key = some v := by
  induction m with
  | nil => simp [setAssoc, lookupAssoc]
  | cons q rest ih =>
    obtain ⟨k, w⟩ := q
    by_cases h : k = key
    · rw [setAssoc, if_pos h, lookupAssoc, if_pos rfl]
    · rw [setAssoc, if_neg h, lookupAssoc, if_neg h]
      exact ih

theorem trackSeq_count (ip : String) (ts : List Nat) :
    ∀ r : RateLimitData, (∀ t ∈ ts, t - r.last_reset < 3600) →
      (trackSeq r ip ts).last_reset = r.last_reset ∧
      (lookupAssoc (trackSeq r ip ts).ip_counts ip).getD 0 =
        (lookupAssoc r.ip_counts ip).getD 0 + ts.length := by
  induction ts with
  | nil =>
    intro r _
    exact ⟨rfl, by simp [trackSeq]⟩
  | cons t ts ih =>
    intro r hwin
    have hnr : reset_rate_limit_if_needed r t = r := by
      rw [reset_rate_limit_if_needed, if_neg]
      have := hwin t (List.mem_cons_self _ _)
      omega
    have hstep : (track_ip_request r ip t).2 =
        { r with ip_counts :=
            (setAssoc r.ip_counts ip ((lookupAssoc r.ip_counts ip).getD 0 + 1)) } := by
      rw [track_ip_request]
      simp only [hnr]
    have hwin' : ∀ u ∈ ts, u - ((track_ip_request r ip t).2).last_reset < 3600 := by
      intro u hu
      rw [hstep]
      exact hwin u (List.mem_cons_of_mem _ hu)
    obtain ⟨ihr, ihc⟩ := ih ((track_ip_request r ip t).2) hwin'
    rw [trackSeq]
    refine ⟨?_, ?_⟩
    · rw [ihr, hstep]
    · rw [ihc, hstep]
      simp only [lookupAssoc_setAssoc_self, Option.getD_some, List.length_cons]
      omega

/-! ### Pipeline orchestration (`fetch_distracting_chunks`,
main.py lines 1750-2077, and `handle_ai_failure`, lines 497-583)

External effects are abstracted into an environment: the admitted
request count, the cache-lookup result, whether the OpenAI key is
configured, the outcome of the breaker-guarded model call (raw text or
raised error message), and the outcomes of the two oracle-dependent
fallback strategies (alternate model, similar cached response).
`cacheWrites` records the `cache_response` calls the request performs,
`modelCalled` whether the breaker-guarded call was reached,
`cacheChecked` whether the cache lookup was reached. -/

inductive PipeValue where
  | decision (d : DecisionJson)
  | fallbackData (fallback_used : String) (data : List String)
deriving DecidableEq, Repr

inductive PipeOutcome where
  | ok (v : PipeValue)
  | httpError (code : Nat) (detail : String)
deriving DecidableEq, Repr

structure PipeResult where
  outcome : PipeOutcome
  cacheWrites : List (String × DecisionJson)
  modelCalled : Bool
  cacheChecked : Bool
deriving DecidableEq, Repr

structure PipelineEnv where
  request_count : Nat
  cached_response : Option DecisionJson
  openai_configured : Bool
  model_outcome : Except String String
  alt_model_result : Option (List String)
  similar_cached : Option (List String)

/-- `handle_ai_failure` (main.py lines 497-583): strategy 1 is tried
only on a rate-limit/quota error text, strategy 2 only on a
timeout/connection error text, strategy 3 only on a circuit-breaker
error text and only when the rule-based filter finds something; any
strategy failure falls through to the next; `none` means the caller
must use the final keyword fallback. -/
def handle_ai_failure (error_message : String) (cleaned_grid : GridStructure)
    (whitelist blacklist : List String)
    (alt_model_result similar_cached : Option (List String)) :
    Option (String × List String) :=
  let lowered := pyLower error_message
  match (if pyIn "rate limit" lowered || pyIn "quota" lowered then alt_model_result
         else none) with
  | some parsed_ids => some ("gpt-3.5-turbo", parsed_ids)
  | none =>
    match (if pyIn "timeout" lowered || pyIn "connection" lowered then similar_cached
           else none) with
    | some similar_response => some ("cached_similar", similar_response)
    | none =>
      if pyIn "circuit breaker" lowered then
        let rule_based_result := apply_rule_based_filtering cleaned_grid whitelist blacklist
        if rule_based_result.isEmpty then none else some ("rule_based", rule_based_result)
      else none

/-- `fetch_distracting_chunks` (main.py lines 1750-2077), modelling the
decision-relevant control flow: rate check, cache lookup, missing-key
keyword fallback, breaker-guarded model call, fallback cascade and
final keyword fallback on failure, sanitize-convert (with empty-result
keyword fallback) on success.  `cache_response` is called only on the
two success paths (lines 1879 and 2070); an exception inside the final
keyword fallback surfaces as the generic 500 error. -/
def fetch_distracting_chunks (env : PipelineEnv) (cleaned_grid : GridStructure)
    (whitelist blacklist : List String) (cache_key : String) : PipeResult :=
  if env.request_count > 3000 then
    ⟨.httpError 429 "RATE_LIMIT_EXCEEDED", [], false, false⟩
  else
    match env.cached_response with
    | some cached => ⟨.ok (.decision cached), [], false, true⟩
    | none =>
      if !env.openai_configured then
        match fallback_keyword_matching cleaned_grid blacklist with
        | .error _ => ⟨.httpError 500 "Internal server error", [], false, true⟩
        | .ok result => ⟨.ok (.decision result), [(cache_key, result)], false, true⟩
      else
        match env.model_outcome with
        | .error e =>
          match handle_ai_failure e cleaned_grid whitelist blacklist
              env.alt_model_result env.similar_cached with
          | some (fallback_used, data) => ⟨.ok (.fallbackData fallback_used data), [], true, true⟩
          | none =>
            match fallback_keyword_matching cleaned_grid blacklist with
            | .error _ => ⟨.httpError 500 "Internal server error", [], true, true⟩
            | .ok result => ⟨.ok (.decision result), [], true, true⟩
        | .ok response_content =>
          let sanitized := sanitize_llm_response response_content cleaned_grid
          if !sanitized.isEmpty && !(pyStrip sanitized).isEmpty then
            let result := convert_newline_format_to_json sanitized
            ⟨.ok (.decision result), [(cache_key, result)], true, true⟩
          else
            match fallback_keyword_matching cleaned_grid blacklist with
            | .error _ => ⟨.httpError 500 "Internal server error", [], true, true⟩
            | .ok result => ⟨.ok (.decision result), [(cache_key, result)], true, true⟩

/-- Environment of the C7 counterexample: admitted request, cache miss,
key configured, model call raised an error whose text triggers no
cascade strategy. -/
def envC7 : PipelineEnv :=
  { request_count := 0
    cached_response := none
    openai_configured := true
    model_outcome := .error "boom"
    alt_model_result := none
    similar_cached := none }

/-- C7: the claim as stated is false.  A decision produced by the final
keyword fallback (after a model failure matching no cascade strategy)
is returned with no cache write at all: fallback decisions are not
stored in the cache before the call returns. -/
theorem C7_counterexample :
    fetch_distracting_chunks envC7 cgC5 [] ["dogs"] "key0" =
      ⟨.ok (.decision [⟨"g1", ["g1c0"]⟩]), [], true, true⟩ := by
  decide

/-! #### Path equations for the pipeline -/

theorem fetch_rate_limited (env : PipelineEnv) (cg : GridStructure)
    (wl bl : List String) (key : String) (h : env.request_count > 3000) :
    fetch_distracting_chunks env cg wl bl key =
      ⟨.httpError 429 "RATE_LIMIT_EXCEEDED", [], false, false⟩ := by
  rw [fetch_distracting_chunks, if_pos h]

theorem fetch_cache_hit (env : PipelineEnv) (cg : GridStructure)
    (wl bl : List String) (key : String) (d : DecisionJson)
    (h1 : ¬ env.request_count > 3000) (h2 : env.cached_response = some d) :
    fetch_distracting_chunks env cg wl bl key =
      ⟨.ok (.decision d), [], false, true⟩ := by
  rw [fetch_distracting_chunks, if_neg h1, h2]

theorem fetch_no_key (env : PipelineEnv) (cg : GridStructure)
    (wl bl : List String) (key : String)
    (h1 : ¬ env.request_count > 3000) (h2 : env.cached_response = none)
    (h3 : env.openai_configured = false) :
    fetch_distracting_chunks env cg wl bl key =
      (match fallback_keyword_matching cg bl with
       | .error _ => ⟨.httpError 500 "Internal server error", [], false, true⟩
       | .ok result => ⟨.ok (.decision result), [(key, result)], false, true⟩) := by
  rw [fetch_distracting_chunks, if_neg h1, h2, h3]
  rfl

theorem fetch_model_error (env : PipelineEnv) (cg : GridStructure)
    (wl bl : List String) (key : String) (e : String)
    (h1 : ¬ env.request_count > 3000) (h2 : env.cached_response = none)
    (h3 : env.openai_configured = true) (h4 : env.model_outcome = .error e) :
    fetch_distracting_chunks env cg wl bl key =
      (match handle_ai_failure e cg wl bl env.alt_model_result env.similar_cached with
       | some (fallback_used, data) => ⟨.ok (.fallbackData fallback_used data), [], true, true⟩
       | none =>
         match fallback_keyword_matching cg bl with
         | .error _ => ⟨.httpError 500 "Internal server error", [], true, true⟩
         | .ok result => ⟨.ok (.decision result), [], true, true⟩) := by
  rw [fetch_distracting_chunks, if_neg h1, h2, h3, h4]
  rfl

theorem fetch_model_ok (env : PipelineEnv) (cg : GridStructure)
    (wl bl : List String) (key : String) (raw : String)
    (h1 : ¬ env.request_count > 3000) (h2 : env.cached_response = none)
    (h3 : env.openai_configured = true) (h4 : env.model_outcome = .ok raw) :
    fetch_distracting_chunks env cg wl bl key =
      (if !(sanitize_llm_response raw cg).isEmpty &&
          !(pyStrip (sanitize_llm_response raw cg)).isEmpty then
        ⟨.ok (.decision (convert_newline_format_to_json (sanitize_llm_response raw cg))),
          [(key, convert_newline_format_to_json (sanitize_llm_response raw cg))], true, true⟩
      else
        match fallback_keyword_matching cg bl with
        | .error _ => ⟨.httpError 500 "Internal server error", [], true, true⟩
        | .ok result => ⟨.ok (.decision result), [(key, result)], true, true⟩) := by
  rw [fetch_distracting_chunks, if_neg h1, h2, h3, h4]
  rfl

/-- C7 (amended): the pipeline caches the decision under the computed
key before returning exactly on the two success paths — the primary
model path (both its convert branch and its empty-response keyword
branch) and the missing-API-key keyword path; decisions reached through
the model-failure route (cascade strategies and final keyword fallback)
are returned without being cached; error responses are never cached. -/
theorem C7_caching_policy (env : PipelineEnv) (cleaned_grid : GridStructure)
    (whitelist blacklist : List String) (cache_key : String) :
    (∀ code detail,
      (fetch_distracting_chunks env cleaned_grid whitelist blacklist cache_key).outcome =
        .httpError code detail →
      (fetch_distracting_chunks env cleaned_grid whitelist blacklist cache_key).cacheWrites =
        []) ∧
    (env.request_count ≤ 3000 → env.cached_response = none → env.openai_configured = true →
      ∀ raw, env.model_outcome = .ok raw →
      ∀ d, (fetch_distracting_chunks env cleaned_grid whitelist blacklist cache_key).outcome =
          .ok (.decision d) →
        (fetch_distracting_chunks env cleaned_grid whitelist blacklist cache_key).cacheWrites =
          [(cache_key, d)]) ∧
    (env.request_count ≤ 3000 → env.cached_response = none → env.openai_configured = false →
      ∀ d, (fetch_distracting_chunks env cleaned_grid whitelist blacklist cache_key).outcome =
          .ok (.decision d) →
        (fetch_distracting_chunks env cleaned_grid whitelist blacklist cache_key).cacheWrites =
          [(cache_key, d)]) ∧
    (env.request_count ≤ 3000 → env.cached_response = none → env.openai_configured = true →
      ∀ e, env.model_outcome = .error e →
        (fetch_distracting_chunks env cleaned_grid whitelist blacklist cache_key).cacheWrites =
          []) ∧
    (∀ d, env.cached_response = some d →
      (fetch_distracting_chunks env cleaned_grid whitelist blacklist cache_key).cacheWrites =
        []) := by
  refine ⟨?_, ?_, ?_, ?_, ?_⟩
  · intro code detail h
    by_cases h1 : env.request_count > 3000
    · rw [fetch_rate_limited env cleaned_grid whitelist blacklist cache_key h1]
    · match hcr : env.cached_response with
      | some cached =>
        rw [fetch_cache_hit env cleaned_grid whitelist blacklist cache_key cached h1 hcr] at h
        cases h
      | none =>
        match hoc : env.openai_configured with
        | false =>
          rw [fetch_no_key env cleaned_grid whitelist blacklist cache_key h1 hcr hoc] at h ⊢
          revert h
          match hfk : fallback_keyword_matching cleaned_grid blacklist with
          | .error e2 => intro h; rfl
          | .ok result => intro h; cases h
        | true =>
          match hmo : env.model_outcome with
          | .error e =>
            rw [fetch_model_error env cleaned_grid whitelist blacklist cache_key e
              h1 hcr hoc hmo] at h ⊢
            revert h
            match hha : handle_ai_failure e cleaned_grid whitelist blacklist
                env.alt_model_result env.similar_cached with
            | some p => intro h; cases h
            | none =>
              revert hha
              match hfk : fallback_keyword_matching cleaned_grid blacklist with
              | .error e2 => intro hha h; rfl
              | .ok result => intro hha h; cases h
          | .ok raw =>
            rw [fetch_model_ok env cleaned_grid whitelist blacklist cache_key raw
              h1 hcr hoc hmo] at h ⊢
            by_cases hs : (!(sanitize_llm_response raw cleaned_grid).isEmpty &&
                !(pyStrip (sanitize_llm_response raw cleaned_grid)).isEmpty) = true
            · rw [if_pos hs] at h; cases h
            · rw [if_neg hs] at h ⊢
              revert h
              match hfk : fallback_keyword_matching cleaned_grid blacklist with
              | .error e2 => intro h; rfl
              | .ok result => intro h; cases h
  · intro h1 h2 h3 raw hmo d h
    rw [fetch_model_ok env cleaned_grid whitelist blacklist cache_key raw
      (by omega) h2 h3 hmo] at h ⊢
    by_cases hs : (!(sanitize_llm_response raw cleaned_grid).isEmpty &&
        !(pyStrip (sanitize_llm_response raw cleaned_grid)).isEmpty) = true
    · rw [if_pos hs] at h ⊢
      simp only [PipeOutcome.ok.injEq, PipeValue.decision.injEq] at h
      rw [h]
    · rw [if_neg hs] at h ⊢
      revert h
      match hfk : fallback_keyword_matching cleaned_grid blacklist with
      | .error e2 => intro h; cases h
      | .ok result =>
        intro h
        simp only [PipeOutcome.ok.injEq, PipeValue.decision.injEq] at h
        rw [h]
  · intro h1 h2 h3 d h
    rw [fetch_no_key env cleaned_grid whitelist blacklist cache_key (by omega) h2 h3] at h ⊢
    revert h
    match hfk : fallback_keyword_matching cleaned_grid blacklist with
    | .error e2 => intro h; cases h
    | .ok result =>
      intro h
      simp only [PipeOutcome.ok.injEq, PipeValue.decision.injEq] at h
      rw [h]
  · intro h1 h2 h3 e hmo
    rw [fetch_model_error env cleaned_grid whitelist blacklist cache_key e
      (by omega) h2 h3 hmo]
    match hha : handle_ai_failure e cleaned_grid whitelist blacklist
        env.alt_model_result env.similar_cached with
    | some p => rfl
    | none =>
      revert hha
      match hfk : fallback_keyword_matching cleaned_grid blacklist with
      | .error e2 => intro hha; rfl
      | .ok result => intro hha; rfl
  · intro d h2
    by_cases h1 : env.request_count > 3000
    · rw [fetch_rate_limited env cleaned_grid whitelist blacklist cache_key h1]
    · rw [fetch_cache_hit env cleaned_grid whitelist blacklist cache_key d h1 h2]

theorem C7_caching_policy_witness :
    ((∀ code detail,
      (fetch_distracting_chunks envC7 cgC5 [] ["dogs"] "key0").outcome =
        .httpError code detail →
      (fetch_distracting_chunks envC7 cgC5 [] ["dogs"] "key0").cacheWrites = []) ∧
    (envC7.request_count ≤ 3000 → envC7.cached_response = none →
      envC7.openai_configured = true →
      ∀ raw, envC7.model_outcome = .ok raw →
      ∀ d, (fetch_distracting_chunks envC7 cgC5 [] ["dogs"] "key0").outcome =
          .ok (.decision d) →
        (fetch_distracting_chunks envC7 cgC5 [] ["dogs"] "key0").cacheWrites =
          [("key0", d)]) ∧
    (envC7.request_count ≤ 3000 → envC7.cached_response = none →
      envC7.openai_configured = false →
      ∀ d, (fetch_distracting_chunks envC7 cgC5 [] ["dogs"] "key0").outcome =
          .ok (.decision d) →
        (fetch_distracting_chunks envC7 cgC5 [] ["dogs"] "key0").cacheWrites =
          [("key0", d)]) ∧
    (envC7.request_count ≤ 3000 → envC7.cached_response = none →
      envC7.openai_configured = true →
      ∀ e, envC7.model_outcome = .error e →
        (fetch_distracting_chunks envC7 cgC5 [] ["dogs"] "key0").cacheWrites = []) ∧
    (∀ d, envC7.cached_response = some d →
      (fetch_distracting_chunks envC7 cgC5 [] ["dogs"] "key0").cacheWrites = [])) :=
  C7_caching_policy envC7 cgC5 [] ["dogs"] "key0"

/-- C9: with the rate ceiling of 3000 per hour — (i) starting from an
identity unseen in the current window, after 3000 admitted requests the
3001st `track_ip_request` within the same window returns 3001; (ii)
`admit` always increments and returns the counter (it is a total
function — it never waits); (iii) a request whose window count is 3001
is rejected with HTTP 429 `RATE_LIMIT_EXCEEDED` before the cache lookup
and before the model call, performing no cache write; (iv) a request
whose count is at most 3000 is never rejected with the rate-limit
error. -/
theorem C9_rate_limit (r0 : RateLimitData) (ip : String) (ts : List Nat) (t : Nat)
    (h0 : lookupAssoc r0.ip_counts ip = none)
    (hlen : ts.length = 3000)
    (hwin : ∀ u ∈ ts, u - r0.last_reset < 3600)
    (ht : t - r0.last_reset < 3600) :
    (track_ip_request (trackSeq r0 ip ts) ip t).1 = 3001 ∧
    (∀ r : RateLimitData, ∀ now, now - r.last_reset < 3600 →
      (track_ip_request r ip now).1 = (lookupAssoc r.ip_counts ip).getD 0 + 1) ∧
    (∀ env : PipelineEnv, ∀ cg wl bl key, env.request_count = 3001 →
      fetch_distracting_chunks env cg wl bl key =
        ⟨.httpError 429 "RATE_LIMIT_EXCEEDED", [], false, false⟩) ∧
    (∀ env : PipelineEnv, ∀ cg wl bl key, env.request_count ≤ 3000 → ∀ detail,
      (fetch_distracting_chunks env cg wl bl key).outcome ≠ .httpError 429 detail) := by
  refine ⟨?_, ?_, ?_, ?_⟩
  · obtain ⟨hres, hcount⟩ := trackSeq_count ip ts r0 hwin
    rw [track_ip_request, reset_rate_limit_if_needed, if_neg (by rw [hres]; omega)]
    simp only
    rw [hcount, h0, hlen]
    rfl
  · intro r now hnow
    rw [track_ip_request, reset_rate_limit_if_needed, if_neg (by omega)]
  · intro env cg wl bl key h
    rw [fetch_distracting_chunks, if_pos (by omega)]
  · intro env cg wl bl key hle detail
    have h1 : ¬ env.request_count > 3000 := by omega
    match hcr : env.cached_response with
    | some cached =>
      rw [fetch_cache_hit env cg wl bl key cached h1 hcr]
      simp
    | none =>
      match hoc : env.openai_configured with
      | false =>
        rw [fetch_no_key env cg wl bl key h1 hcr hoc]
        match hfk : fallback_keyword_matching cg bl with
        | .error e2 => simp
        | .ok result => simp
      | true =>
        match hmo : env.model_outcome with
        | .error e =>
          rw [fetch_model_error env cg wl bl key e h1 hcr hoc hmo]
          match hha : handle_ai_failure e cg wl bl env.alt_model_result
              env.similar_cached with
          | some p => simp
          | none =>
            revert hha
            match hfk : fallback_keyword_matching cg bl with
            | .error e2 => intro hha; simp
            | .ok result => intro hha; simp
        | .ok raw =>
          rw [fetch_model_ok env cg wl bl key raw h1 hcr hoc hmo]
          by_cases hs : (!(sanitize_llm_response raw cg).isEmpty &&
              !(pyStrip (sanitize_llm_response raw cg)).isEmpty) = true
          · rw [if_pos hs]
            simp
          · rw [if_neg hs]
            match hfk : fallback_keyword_matching cg bl with
            | .error e2 => simp
            | .ok result => simp

theorem C9_rate_limit_witness :
    ((track_ip_request (trackSeq ⟨[], 0⟩ "203.0.113.7" (List.replicate 3000 5))
        "203.0.113.7" 6).1 = 3001 ∧
    (∀ r : RateLimitData, ∀ now, now - r.last_reset < 3600 →
      (track_ip_request r "203.0.113.7" now).1 =
        (lookupAssoc r.ip_counts "203.0.113.7").getD 0 + 1) ∧
    (∀ env : PipelineEnv, ∀ cg wl bl key, env.request_count = 3001 →
      fetch_distracting_chunks env cg wl bl key =
        ⟨.httpError 429 "RATE_LIMIT_EXCEEDED", [], false, false⟩) ∧
    (∀ env : PipelineEnv, ∀ cg wl bl key, env.request_count ≤ 3000 → ∀ detail,
      (fetch_distracting_chunks env cg wl bl key).outcome ≠ .httpError 429 detail)) :=
  C9_rate_limit ⟨[], 0⟩ "203.0.113.7" (List.replicate 3000 5) 6 rfl
    (by rw [List.length_replicate])
    (by
      intro u hu
      have := List.eq_of_mem_replicate hu
      omega)
    (by omega)

/-! ### Grid cleaning for the model (`clean_grid_structure_for_llm`,
main.py lines 2132-2178) -/

/-- Python's `text[:n] + "..."` truncation applied when `len(text) > n`. -/
def truncatePyText (s : String) (n : Nat) : String :=
  if s.length > n then String.mk (s.toList.take n) ++ "..." else s

/-- Per-child cleaning: keep the id, truncate the text to 50
characters. -/
def cleanChild (child : Child) : Child :=
  ⟨child.id, truncatePyText child.text 50⟩

/-- Per-grid cleaning: keep id/totalChildren, truncate the grid text to
500 characters, keep only the first 10 children, each cleaned. -/
def cleanGrid (grid : Grid) : Grid :=
  { id := grid.id
    totalChildren := grid.totalChildren
    gridText := grid.gridText.map (fun t => truncatePyText t 500)
    children := (grid.children.take 10).map cleanChild }

/-- `clean_grid_structure_for_llm` (main.py lines 2132-2178). -/
def clean_grid_structure_for_llm (grid_structure : GridStructure) : GridStructure :=
  ⟨grid_structure.totalGrids, grid_structure.grids.map cleanGrid⟩

/-- The ids of the first ten children of every grid of the original
structure. -/
def firstTenIds (g : GridStructure) : List String :=
  g.grids.flatMap (fun gr => (gr.children.take 10).filterMap (fun ch => ch.id))

theorem clean_valid_ids (g : GridStructure) :
    get_valid_child_ids (clean_grid_structure_for_llm g) = firstTenIds g := by
  rw [get_valid_child_ids, clean_grid_structure_for_llm, firstTenIds]
  simp only [List.flatMap_map]
  congr 1
  funext gr
  rw [cleanGrid]
  simp only
  rw [List.filterMap_map]
  rfl

theorem rule_based_subset_valid (cleaned : GridStructure) (wl bl : List String) :
    ∀ cid ∈ apply_rule_based_filtering cleaned wl bl, cid ∈ get_valid_child_ids cleaned := by
  intro cid hmem
  rw [apply_rule_based_filtering, List.mem_flatMap] at hmem
  obtain ⟨gr, hgr, hmem⟩ := hmem
  rw [List.mem_flatMap] at hmem
  obtain ⟨ch, hch, hmem⟩ := hmem
  obtain ⟨hid, _, _, _⟩ := childRuleHide_mem hmem
  rw [get_valid_child_ids, List.mem_flatMap]
  exact ⟨gr, hgr, List.mem_filterMap.mpr ⟨ch, hch, hid⟩⟩

theorem fkmChildren_ids_mem (bl : List String) (grid : Grid) (children : List Child)
    (entries : List DecisionEntry) (h : fkmChildren bl grid children = .ok entries) :
    ∀ cid ∈ decisionChildIds entries, cid ∈ children.filterMap (fun ch => ch.id) := by
  induction children generalizing entries with
  | nil =>
    rw [fkmChildren] at h
    cases h
    simp [decisionChildIds]
  | cons ch rest ih =>
    rw [fkmChildren] at h
    by_cases hb : bl.any (fun keyword => pyIn keyword (pyLower ch.text)) = true
    · rw [if_pos hb] at h
      match hid : ch.id with
      | none => rw [hid] at h; cases h
      | some cid0 =>
        rw [hid] at h
        simp only at h
        match hrec : fkmChildren bl grid rest with
        | .error e => rw [hrec] at h; cases h
        | .ok tail =>
          rw [hrec] at h
          cases h
          intro cid hcid
          rw [decisionChildIds, List.flatMap_cons, List.mem_append] at hcid
          rw [List.filterMap_cons, hid]
          rcases hcid with hh | hh

          · simp only [List.mem_singleton] at hh
            subst hh
            exact List.mem_cons_self _ _
          · exact List.mem_cons_of_mem _ (ih tail hrec cid hh)
    · rw [if_neg hb] at h
      intro cid hcid
      rw [List.filterMap_cons]
      match hid : ch.id with
      | none => exact ih entries h cid hcid
      | some cid0 => exact List.mem_cons_of_mem _ (ih entries h cid hcid)

theorem fkm_ids_subset_valid (cleaned : GridStructure) (bl : List String)
    (d : DecisionJson) (h : fallback_keyword_matching cleaned bl = .ok d) :
    ∀ cid ∈ decisionChildIds d, cid ∈ get_valid_child_ids cleaned := by
  rw [fallback_keyword_matching] at h
  by_cases hempty : bl.isEmpty ∨ cleaned.grids.isEmpty
  · rw [if_pos hempty] at h
    cases h
    simp [decisionChildIds]
  · rw [if_neg hempty] at h
    rw [get_valid_child_ids]
    revert h
    generalize cleaned.grids = grids
    intro h
    induction grids generalizing d with
    | nil =>
      rw [fkmGrids] at h
      cases h
      simp [decisionChildIds]
    | cons gr rest ih =>
      rw [fkmGrids] at h
      match h1 : fkmChildren (bl.map pyLower) gr gr.children with
      | .error e => rw [h1] at h; cases h
      | .ok r1 =>
        rw [h1] at h
        match h2 : fkmGrids (bl.map pyLower) rest with
        | .error e => rw [h2] at h; cases h
        | .ok r2 =>
          rw [h2] at h
          cases h
          intro cid hcid
          rw [decisionChildIds, List.flatMap_append, List.mem_append] at hcid
          rw [List.flatMap_cons, List.mem_append]
          rcases hcid with hh | hh
          · exact Or.inl (fkmChildren_ids_mem _ gr gr.children r1 h1 cid hh)
          · exact Or.inr (ih r2 h2 cid hh)

/-- C10: cleaning keeps at most the first 10 children of each grid
(ids unchanged, text truncated at 50 characters with an ellipsis
marker), the valid-id manifest given to the model is exactly the ids of
each grid's first ten children, and every id named by the sanitizer,
by the final keyword fallback, or by the rule-based strategy-3 filter
over the cleaned structure lies among those first-ten ids — no decision
can hide a child beyond a grid's first ten. -/
theorem C10_only_first_ten_hidable (g : GridStructure) :
    (∀ gr ∈ (clean_grid_structure_for_llm g).grids, gr.children.length ≤ 10) ∧
    (∀ gr ∈ g.grids, (cleanGrid gr).children = (gr.children.take 10).map cleanChild) ∧
    (∀ ch : Child, (cleanChild ch).id = ch.id ∧
      (((cleanChild ch).text = ch.text ∧ ch.text.length ≤ 50) ∨
        ((cleanChild ch).text = String.mk (ch.text.toList.take 50) ++ "..." ∧
          ch.text.length > 50))) ∧
    (get_valid_child_ids (clean_grid_structure_for_llm g) = firstTenIds g) ∧
    (∀ text : String, ∀ cid ∈ sanitizedIds text (clean_grid_structure_for_llm g),
      cid ∈ firstTenIds g) ∧
    (∀ bl d, fallback_keyword_matching (clean_grid_structure_for_llm g) bl = .ok d →
      ∀ cid ∈ decisionChildIds d, cid ∈ firstTenIds g) ∧
    (∀ wl bl, ∀ cid ∈ apply_rule_based_filtering (clean_grid_structure_for_llm g) wl bl,
      cid ∈ firstTenIds g) := by
  refine ⟨?_, ?_, ?_, clean_valid_ids g, ?_, ?_, ?_⟩
  · intro gr hgr
    rw [clean_grid_structure_for_llm] at hgr
    simp only [List.mem_map] at hgr
    obtain ⟨gr0, _, hgr0⟩ := hgr
    rw [← hgr0, cleanGrid]
    simp only [List.length_map, List.length_take]
    omega
  · intro gr _
    rw [cleanGrid]
  · intro ch
    refine ⟨rfl, ?_⟩
    rw [cleanChild]
    simp only
    rw [truncatePyText]
    by_cases hl : ch.text.length > 50
    · rw [if_pos hl]
      exact Or.inr ⟨rfl, hl⟩
    · rw [if_neg hl]
      exact Or.inl ⟨rfl, by omega⟩
  · intro text cid hcid
    obtain ⟨hmem, _, _⟩ :=
      filterValidIds_spec (get_valid_child_ids (clean_grid_structure_for_llm g))
        (findIds text.toList) []
    have := ((hmem cid).mp hcid).2.1
    rwa [clean_valid_ids g] at this
  · intro bl d hd cid hcid
    have := fkm_ids_subset_valid (clean_grid_structure_for_llm g) bl d hd cid hcid
    rwa [clean_valid_ids g] at this
  · intro wl bl cid hcid
    have := rule_based_subset_valid (clean_grid_structure_for_llm g) wl bl cid hcid
    rwa [clean_valid_ids g] at this

end DoomBlocker
